import Mathlib

/-!
Verification development for the text-to-ppt-generator backend.

The definitions below are a shallow embedding of the Python sources:
  * `backend/app/services/llm_service.py` — prompt-response parsing and
    validation (`_parse_llm_response`, `process_text_to_slides`),
  * `backend/app/main.py` — the HTTP endpoints and the in-memory task table,
  * `backend/app/services/ppt_service.py` — the renderer's slide-type dispatch.

Python strings are modelled as `List Char` / `String`, JSON values as the
inductive `JValue` (Python dicts become association lists with unique keys,
kept in insertion order, exactly as `json.loads` produces them), and raised
exceptions become `Except` errors carrying the exception messages.
-/

set_option maxRecDepth 10000

namespace TextToPpt

/-- The backtick character (code 96). -/
def bq : Char := Char.ofNat 96

/-- The opening-brace character (code 123). -/
def lb : Char := Char.ofNat 123

/-- The closing-brace character (code 125). -/
def rb : Char := Char.ofNat 125

/-- ASCII approximation of the character class stripped by Python's
`str.strip()` (space, tab, newline, carriage return, vertical tab, form feed). -/
def isPyWs (c : Char) : Bool :=
  c = ' ' || c = '\t' || c = '\n' || c = '\r' || c = Char.ofNat 11 || c = Char.ofNat 12

/-- Build a `String` from a character list. -/
def ofChars (l : List Char) : String := String.mk l

/-- Remove trailing whitespace, as the right half of Python's `str.strip()`. -/
def pyDropTrail (l : List Char) : List Char := (l.reverse.dropWhile isPyWs).reverse

/-- Python's `str.strip()` on a character list. -/
def pyStrip (l : List Char) : List Char := pyDropTrail (l.dropWhile isPyWs)

/-- Whether the list begins with six consecutive backticks, the literal
pattern of the regex in `_parse_llm_response`
(`re.sub(r'``````', '', cleaned_response)`). -/
def sixAt (l : List Char) : Bool := l.take 6 == List.replicate 6 bq

/-- Fuel-driven worker for `removeSix`; the fuel only bounds recursion depth. -/
def removeSixAux : Nat → List Char → List Char
  | 0, l => l
  | _ + 1, [] => []
  | f + 1, c :: cs =>
    if sixAt (c :: cs) then removeSixAux f (cs.drop 5) else c :: removeSixAux f cs

/-- `re.sub(r'``````', '', s)`: delete every non-overlapping run of six
backticks, scanning left to right. -/
def removeSix (l : List Char) : List Char := removeSixAux l.length l

/-- Python's `str.find` restricted to a single character, returning `none`
instead of `-1` when the character is absent. -/
def findIdxC (c : Char) : List Char → Option Nat
  | [] => none
  | d :: l => if d = c then some 0 else (findIdxC c l).map (· + 1)

/-- Python's `str.rfind` for a single character (index of the last occurrence). -/
def rfindIdxC (c : Char) (l : List Char) : Option Nat :=
  match findIdxC c l.reverse with
  | some k => some (l.length - 1 - k)
  | none => none

/-- The brace-trimming phase of `_parse_llm_response` (llm_service.py lines
191-201): drop text before the first opening brace (`find` + slice, only
when the index is positive), then drop text after the last closing brace
(`rfind` + slice, only when the index is positive and not already last). -/
def braceTrim (s2 : List Char) : List Char :=
  let s3 :=
    match findIdxC lb s2 with
    | some i => if 0 < i then s2.drop i else s2
    | none => s2
  match rfindIdxC rb s3 with
  | some j => if 0 < j ∧ j < s3.length - 1 then s3.take (j + 1) else s3
  | none => s3

/-- The whole response-cleaning phase of `_parse_llm_response` (llm_service.py
lines 184-201): `strip()`, two identical six-backtick `re.sub`s, then the
brace trimming. -/
def cleanResponse (cs : List Char) : List Char :=
  braceTrim (removeSix (removeSix (pyStrip cs)))

/-- JSON values as produced by Python's `json.loads`: objects are
insertion-ordered association lists with unique keys; numbers keep their
source literal (no claim below depends on numeric semantics). -/
inductive JValue where
  | null
  | bool (b : Bool)
  | num (lit : String)
  | str (s : String)
  | arr (elems : List JValue)
  | obj (fields : List (String × JValue))

/-- JSON whitespace accepted between tokens by `json.loads`. -/
def isJsonWs (c : Char) : Bool := c = ' ' || c = '\t' || c = '\n' || c = '\r'

/-- Skip JSON whitespace. -/
def skipWs (l : List Char) : List Char := l.dropWhile isJsonWs

/-- Value of one hexadecimal digit. -/
def hexVal (c : Char) : Option Nat :=
  if '0' ≤ c ∧ c ≤ '9' then some (c.toNat - 48)
  else if 'a' ≤ c ∧ c ≤ 'f' then some (c.toNat - 87)
  else if 'A' ≤ c ∧ c ≤ 'F' then some (c.toNat - 55)
  else none

/-- Parse the body of a JSON string after the opening quote, with the escape
set of `json.loads` in strict mode (raw control characters below 0x20 are
rejected, `\uXXXX` escapes are decoded, surrogate pairs are combined). The
fuel only bounds recursion depth; one unit per consumed character suffices. -/
def parseStringBodyAux : Nat → List Char → List Char → Option (String × List Char)
  | 0, _, _ => none
  | _ + 1, _, [] => none
  | f + 1, acc, c :: rest =>
    if c = '"' then some (ofChars acc.reverse, rest)
    else if c = '\\' then
      match rest with
      | [] => none
      | e :: rest2 =>
        if e = '"' then parseStringBodyAux f ('"' :: acc) rest2
        else if e = '\\' then parseStringBodyAux f ('\\' :: acc) rest2
        else if e = '/' then parseStringBodyAux f ('/' :: acc) rest2
        else if e = 'b' then parseStringBodyAux f (Char.ofNat 8 :: acc) rest2
        else if e = 'f' then parseStringBodyAux f (Char.ofNat 12 :: acc) rest2
        else if e = 'n' then parseStringBodyAux f ('\n' :: acc) rest2
        else if e = 'r' then parseStringBodyAux f ('\r' :: acc) rest2
        else if e = 't' then parseStringBodyAux f ('\t' :: acc) rest2
        else if e = 'u' then
          match rest2 with
          | h1 :: h2 :: h3 :: h4 :: rest3 =>
            match hexVal h1, hexVal h2, hexVal h3, hexVal h4 with
            | some a, some b, some cc, some d =>
              let n := ((a * 16 + b) * 16 + cc) * 16 + d
              if 0xD800 ≤ n ∧ n ≤ 0xDBFF then
                match rest3 with
                | s1 :: s2 :: g1 :: g2 :: g3 :: g4 :: rest4 =>
                  if s1 = '\\' ∧ s2 = 'u' then
                    match hexVal g1, hexVal g2, hexVal g3, hexVal g4 with
                    | some a2, some b2, some c2, some d2 =>
                      let m := ((a2 * 16 + b2) * 16 + c2) * 16 + d2
                      if 0xDC00 ≤ m ∧ m ≤ 0xDFFF then
                        parseStringBodyAux f
                          (Char.ofNat (0x10000 + (n - 0xD800) * 0x400 + (m - 0xDC00)) :: acc)
                          rest4
                      else parseStringBodyAux f (Char.ofNat n :: acc) rest3
                    | _, _, _, _ => parseStringBodyAux f (Char.ofNat n :: acc) rest3
                  else parseStringBodyAux f (Char.ofNat n :: acc) rest3
                | _ => parseStringBodyAux f (Char.ofNat n :: acc) rest3
              else parseStringBodyAux f (Char.ofNat n :: acc) rest3
            | _, _, _, _ => none
          | _ => none
        else none
    else if c.toNat < 0x20 then none
    else parseStringBodyAux f (c :: acc) rest

/-- Parse a JSON string body starting with ample fuel. -/
def parseStringBody (acc : List Char) (l : List Char) : Option (String × List Char) :=
  parseStringBodyAux (l.length + 1) acc l

/-- Parse a JSON number per the grammar used by `json.loads`
(`-?(0|[1-9][0-9]*)(\.[0-9]+)?([eE][+-]?[0-9]+)?`), keeping the literal. -/
def parseNumber (l : List Char) : Option (String × List Char) :=
  let (sign, l1) :=
    match l with
    | c :: r => if c = '-' then (['-'], r) else (([] : List Char), l)
    | [] => (([] : List Char), l)
  match l1 with
  | [] => none
  | d :: _ =>
    if !d.isDigit then none
    else
      let (intPart, r2) :=
        if d = '0' then (['0'], l1.drop 1)
        else (l1.takeWhile Char.isDigit, l1.dropWhile Char.isDigit)
      let (fracPart, r3) :=
        match r2 with
        | p :: t =>
          if p = '.' ∧ (t.takeWhile Char.isDigit) ≠ [] then
            ('.' :: t.takeWhile Char.isDigit, t.dropWhile Char.isDigit)
          else (([] : List Char), r2)
        | [] => (([] : List Char), r2)
      let (expPart, r4) :=
        match r3 with
        | p :: t =>
          if p = 'e' ∨ p = 'E' then
            let (sgn, t2) :=
              match t with
              | q :: u => if q = '+' ∨ q = '-' then ([q], u) else (([] : List Char), t)
              | [] => (([] : List Char), t)
            if (t2.takeWhile Char.isDigit) ≠ [] then
              (p :: sgn ++ t2.takeWhile Char.isDigit, t2.dropWhile Char.isDigit)
            else (([] : List Char), r3)
          else (([] : List Char), r3)
        | [] => (([] : List Char), r3)
      some (ofChars (sign ++ intPart ++ fracPart ++ expPart), r4)

/-- Insert a key-value pair as Python dict assignment does while
`json.loads` builds an object: replace the value in place when the key is
already present, otherwise append. -/
def insertKey (fields : List (String × JValue)) (k : String) (v : JValue) :
    List (String × JValue) :=
  match fields with
  | [] => [(k, v)]
  | (k', v') :: rest => if k' = k then (k', v) :: rest else (k', v') :: insertKey rest k v

mutual

/-- Parse one JSON value; the input starts at a token (whitespace skipped). -/
def parseVal : Nat → List Char → Option (JValue × List Char)
  | 0, _ => none
  | f + 1, l =>
    match l with
    | [] => none
    | c :: rest =>
      if c = lb then parseObjBody f (skipWs rest) []
      else if c = '[' then parseArrBody f (skipWs rest) []
      else if c = '"' then (parseStringBody [] rest).map (fun p => (.str p.1, p.2))
      else if c = 't' then
        match rest with
        | 'r' :: 'u' :: 'e' :: r => some (.bool true, r)
        | _ => none
      else if c = 'f' then
        match rest with
        | 'a' :: 'l' :: 's' :: 'e' :: r => some (.bool false, r)
        | _ => none
      else if c = 'n' then
        match rest with
        | 'u' :: 'l' :: 'l' :: r => some (.null, r)
        | _ => none
      else if c = 'N' then
        match rest with
        | 'a' :: 'N' :: r => some (.num "NaN", r)
        | _ => none
      else if c = 'I' then
        match rest with
        | 'n' :: 'f' :: 'i' :: 'n' :: 'i' :: 't' :: 'y' :: r => some (.num "Infinity", r)
        | _ => none
      else if c = '-' then
        match rest with
        | 'I' :: 'n' :: 'f' :: 'i' :: 'n' :: 'i' :: 't' :: 'y' :: r =>
          some (.num "-Infinity", r)
        | _ => (parseNumber l).map (fun p => (.num p.1, p.2))
      else if c.isDigit then (parseNumber l).map (fun p => (.num p.1, p.2))
      else none

/-- Parse object members; the input is positioned (whitespace skipped) at
either the closing brace (only legal while no member has been read) or at
the opening quote of the next key. -/
def parseObjBody : Nat → List Char → List (String × JValue) →
    Option (JValue × List Char)
  | 0, _, _ => none
  | f + 1, l, acc =>
    match l with
    | [] => none
    | c :: rest =>
      if c = rb then if acc.isEmpty then some (.obj [], rest) else none
      else if c = '"' then
        match parseStringBody [] rest with
        | none => none
        | some (k, r1) =>
          match skipWs r1 with
          | ':' :: r2 =>
            match parseVal f (skipWs r2) with
            | none => none
            | some (v, r3) =>
              let acc' := insertKey acc k v
              match skipWs r3 with
              | ',' :: r4 => parseObjBody f (skipWs r4) acc'
              | d :: r4 => if d = rb then some (.obj acc', r4) else none
              | [] => none
          | _ => none
      else none

/-- Parse array elements; the input is positioned (whitespace skipped) at
either the closing bracket (only legal while no element has been read) or
at the start of the next element. -/
def parseArrBody : Nat → List Char → List JValue → Option (JValue × List Char)
  | 0, _, _ => none
  | f + 1, l, acc =>
    match l with
    | [] => none
    | c :: _ =>
      if c = ']' then if acc.isEmpty then some (.arr [], l.drop 1) else none
      else
        match parseVal f l with
        | none => none
        | some (v, r1) =>
          match skipWs r1 with
          | ',' :: r2 => parseArrBody f (skipWs r2) (acc ++ [v])
          | d :: r2 => if d = ']' then some (.arr (acc ++ [v]), r2) else none
          | [] => none

end

/-- Python's `json.loads`: parse one value and require only whitespace after
it; `none` models a raised `json.JSONDecodeError`. -/
def jsonParse (l : List Char) : Option JValue :=
  match parseVal (4 * l.length + 16) (skipWs l) with
  | some (v, rest) => if (skipWs rest).isEmpty then some v else none
  | none => none

/-- Dict lookup (`d[k]` / `d.get(k)`); keys are unique in parsed objects. -/
def lookupField (fields : List (String × JValue)) (k : String) : Option JValue :=
  match fields with
  | [] => none
  | (k', v) :: rest => if k' = k then some v else lookupField rest k

/-- Python's `k in d`. -/
def hasKey (fields : List (String × JValue)) (k : String) : Bool :=
  (lookupField fields k).isSome

/-- Python's `d.setdefault(k, v)`: keep an existing entry, else append. -/
def setDefaultField (fields : List (String × JValue)) (k : String) (v : JValue) :
    List (String × JValue) :=
  if hasKey fields k then fields else fields ++ [(k, v)]

/-- Python's `d[k] = v`: replace in place when present, else append. -/
def setField (fields : List (String × JValue)) (k : String) (v : JValue) :
    List (String × JValue) :=
  match fields with
  | [] => [(k, v)]
  | (k', v') :: rest => if k' = k then (k', v) :: rest else (k', v') :: setField rest k v

/-- Python's `x == "some string"` for a JSON value: string equality when `x`
is a string, `False` for every other runtime type. -/
def jstrEq (v : JValue) (s : String) : Bool :=
  match v with
  | .str s' => s' == s
  | _ => false

/-- Python runtime type name of a parsed JSON value, as it appears in an
`AttributeError` message. -/
def pyTypeName (v : JValue) : String :=
  match v with
  | .null => "NoneType"
  | .bool _ => "bool"
  | .str _ => "str"
  | .arr _ => "list"
  | .obj _ => "dict"
  | .num lit =>
    if lit.toList.any (fun c => c = '.' || c = 'e' || c = 'E') ||
        lit == "NaN" || lit == "Infinity" || lit == "-Infinity"
    then "float" else "int"

/-- Errors raised inside `_parse_llm_response`, tagged by the handler that
produces the final message: `invalidJson` is the `json.JSONDecodeError`
branch (it carries the first 100 characters of the original raw response),
`parseFailure` is the generic `except Exception` branch (it carries the
inner exception text). -/
inductive PErr where
  | invalidJson (excerpt : String)
  | parseFailure (msg : String)
deriving DecidableEq

/-- The final message of a `_parse_llm_response` error
(llm_service.py lines 235 and 238). -/
def errMessage : PErr → String
  | .invalidJson excerpt => "Invalid JSON from LLM. Response started with: " ++ excerpt ++ "..."
  | .parseFailure msg => "Failed to parse LLM response: " ++ msg

/-- Per-slide defaulting of `_parse_llm_response` (lines 222-228) on a slide
that is a dict, for the 0-based index `i`. -/
def fixFields (i : Nat) (fs : List (String × JValue)) : List (String × JValue) :=
  let fs1 := setDefaultField fs "type" (.str "content")
  let fs2 := setDefaultField fs1 "title" (.str ("Slide " ++ toString (i + 1)))
  let fs3 := setDefaultField fs2 "speaker_notes" (.str ("Notes for slide " ++ toString (i + 1)))
  let isContent :=
    match lookupField fs3 "type" with
    | some t => jstrEq t "content"
    | none => false
  if isContent && !hasKey fs3 "content" then
    setField fs3 "content" (.arr [.str "Main point for this slide"])
  else fs3

/-- One loop iteration of the slide-defaulting pass: a non-dict slide raises
`AttributeError` on `slide.setdefault`, which the generic handler turns into
a `parseFailure`. -/
def fixSlide (i : Nat) (s : JValue) : Except PErr JValue :=
  match s with
  | .obj fs => .ok (.obj (fixFields i fs))
  | v => .error (.parseFailure
      ("'" ++ pyTypeName v ++ "' object has no attribute 'setdefault'"))

/-- The whole `for i, slide in enumerate(slides)` loop, starting at index `i`;
a raised exception propagates and discards the in-place updates. -/
def fixSlides (i : Nat) : List JValue → Except PErr (List JValue)
  | [] => .ok []
  | s :: rest =>
    match fixSlide i s with
    | .error e => .error e
    | .ok s' =>
      match fixSlides (i + 1) rest with
      | .error e => .error e
      | .ok rest' => .ok (s' :: rest')

/-- Structure validation and defaulting of `_parse_llm_response`
(lines 208-230) applied to the value returned by `json.loads`. -/
def validateStructure (j : JValue) : Except PErr JValue :=
  match j with
  | .obj fields =>
    match lookupField fields "slides" with
    | none => .error (.parseFailure "No 'slides' key found in response")
    | some sv =>
      match sv with
      | .arr slides =>
        if slides.isEmpty then .error (.parseFailure "'slides' must be a non-empty array")
        else
          let fields1 := setDefaultField fields "title" (.str "Generated Presentation")
          match fixSlides 0 slides with
          | .error e => .error e
          | .ok slides' => .ok (.obj (setField fields1 "slides" (.arr slides')))
      | _ => .error (.parseFailure "'slides' must be a non-empty array")
  | _ => .error (.parseFailure "Response is not a JSON object")

/-- `LLMService._parse_llm_response` (llm_service.py lines 178-238): the
empty-response guard, the cleaning phase, `json.loads`, and the structure
validation, with both `except` branches. -/
def parse_llm_response (response : String) : Except PErr JValue :=
  let cs := response.toList
  if (pyStrip cs).isEmpty then .error (.parseFailure "Empty response from LLM")
  else
    match jsonParse (cleanResponse cs) with
    | none => .error (.invalidJson (ofChars (cs.take 100)))
    | some v => validateStructure v

/-- `LLMService.process_text_to_slides` applied to the raw text the backend
returned (llm_service.py lines 39-73): the empty-response guard at line 63
fires before `_parse_llm_response`, and every failure is re-wrapped as
`Exception("LLM processing failed: ...")`. -/
def process_text_to_slides (response : String) : Except String JValue :=
  if (pyStrip response.toList).isEmpty then
    .error "LLM processing failed: Empty response from LLM"
  else
    match parse_llm_response response with
    | .error e => .error ("LLM processing failed: " ++ errMessage e)
    | .ok v => .ok v

/-!  The model of `backend/app/main.py`.  -/

/-- One entry of the in-memory `generation_tasks` dict (the `created_at`
timestamp is not modelled; no claim depends on it). -/
structure TaskEntry where
  status : String
  progress : Nat
  message : String
  filePath : Option String
deriving DecidableEq

/-- The `generation_tasks` dict, keyed by task id. -/
def TaskTable := List (String × TaskEntry)

/-- Read a task entry. -/
def getTask (t : TaskTable) (id : String) : Option TaskEntry :=
  match t with
  | [] => none
  | (id', e) :: rest => if id' = id then some e else getTask rest id

/-- `generation_tasks[task_id] = entry`. -/
def setTask (t : TaskTable) (id : String) (e : TaskEntry) : TaskTable :=
  match t with
  | [] => [(id, e)]
  | (id', e') :: rest => if id' = id then (id', e) :: rest else (id', e') :: setTask rest id e

/-- `generation_tasks[task_id].update({...})`: partial in-place update of an
existing entry (the endpoints only update entries they created). -/
def updTask (t : TaskTable) (id : String) (f : TaskEntry → TaskEntry) : TaskTable :=
  match t with
  | [] => []
  | (id', e) :: rest => if id' = id then (id', f e) :: rest else (id', e) :: updTask rest id f

/-- Python's `str.lower()` (ASCII approximation). -/
def pyLower (s : String) : String := ofChars (s.toList.map Char.toLower)

/-- Python's `str.endswith(suffix)`. -/
def endsWithC (s suffix : String) : Bool :=
  s.toList.reverse.take suffix.toList.length == suffix.toList.reverse

/-- The provider set accepted by `LLMService._setup_client`
(llm_service.py lines 20-31), checked on `provider.lower()`. -/
def supportedProvider (p : String) : Bool :=
  p == "openai" || p == "anthropic" || p == "gemini"

/-- Result of the `POST /generate-presentation` endpoint: either the started
task or an HTTP error response. -/
inductive StartResult where
  | started (taskId status message : String)
  | httpError (code : Nat) (detail : String)
deriving DecidableEq

/-- `generate_full_presentation` (main.py lines 90-141): validates text
length and template filename, creates the task entry with status
`"started"`, and schedules the background task. The provider string is not
inspected here. `HTTPException`s raised inside the `try` are caught by the
generic handler and re-raised as 500 with `str(e) = "400: <detail>"`. -/
def generate_full_presentation (text filename provider taskId : String)
    (tasks : TaskTable) : StartResult × TaskTable :=
  let _ := provider
  if (pyStrip text.toList).length < 20 then
    (.httpError 500 "Failed to start generation: 400: Text must be at least 20 characters",
      tasks)
  else if !(endsWithC (pyLower filename) ".pptx" || endsWithC (pyLower filename) ".potx") then
    (.httpError 500 "Failed to start generation: 400: Template must be a .pptx or .potx file",
      tasks)
  else
    (.started taskId "started" "Generation started. Use task_id to check progress.",
      setTask tasks taskId
        ⟨"started", 0, "Starting presentation generation...", none⟩)

/-- `process_full_generation` (main.py lines 180-255), the background task.
File IO and the python-pptx renderer are external and modelled as
succeeding; the network call to the LLM backend is modelled by the raw text
`llmResponse` it would return. An unsupported provider raises
`ValueError(f"Unsupported LLM provider: {provider.lower()}")` from the
`LLMService` constructor; any exception lands in the final handler, which
records `status="failed"`, `progress=0`. -/
def process_full_generation (taskId text provider llmResponse : String)
    (tasks : TaskTable) : TaskTable :=
  let _ := text
  let t1 := updTask tasks taskId fun e =>
    { e with status := "processing", progress := 10, message := "Saving template file..." }
  let t2 := updTask t1 taskId fun e =>
    { e with progress := 30, message := "Converting text to slides with AI..." }
  if !supportedProvider (pyLower provider) then
    updTask t2 taskId fun e =>
      { e with status := "failed", progress := 0,
               message := "Generation failed: Unsupported LLM provider: " ++ pyLower provider }
  else
    match process_text_to_slides llmResponse with
    | .error msg =>
      updTask t2 taskId fun e =>
        { e with status := "failed", progress := 0, message := "Generation failed: " ++ msg }
    | .ok _ =>
      let t3 := updTask t2 taskId fun e =>
        { e with progress := 70, message := "Creating PowerPoint presentation..." }
      updTask t3 taskId fun e =>
        { e with status := "completed", progress := 100,
                 message := "Presentation generated successfully!",
                 filePath := some ("generated_files/" ++ taskId ++ "_presentation.pptx") }

/-- `len(slide_structure.get("slides", []))` as used by the outline endpoint. -/
def slideCountOf (v : JValue) : Nat :=
  match v with
  | .obj fs =>
    match lookupField fs "slides" with
    | some (.arr l) => l.length
    | _ => 0
  | _ => 0

/-- Result of the `POST /process-text` endpoint. -/
inductive OutlineResult where
  | ok (slideCount : Nat) (presentation : JValue)
  | httpError (code : Nat) (detail : String)

/-- `process_text_to_slides` endpoint handler (main.py lines 58-88): text
length check, then a synchronous, case-sensitive provider check, then the
LLM call; every raised exception is re-wrapped as a 500. -/
def process_text_endpoint (text provider llmResponse : String) : OutlineResult :=
  if (pyStrip text.toList).length < 20 then
    .httpError 500 "Processing failed: 400: Text must be at least 20 characters"
  else if !(provider == "openai" || provider == "anthropic" || provider == "gemini") then
    .httpError 500 "Processing failed: 400: Unsupported LLM provider"
  else
    match process_text_to_slides llmResponse with
    | .error m => .httpError 500 ("Processing failed: " ++ m)
    | .ok v => .ok (slideCountOf v) v

/-- The slide-type dispatch of the renderer,
`PPTService._generate_slides_from_structure` (ppt_service.py lines 177-189):
`slide_data.get('type', 'content')` routed through `if/elif/else`, so every
type other than the strings `"title"` and `"section"` takes the content
branch. -/
inductive SlideKind where
  | title
  | section
  | content
deriving DecidableEq

/-- Which renderer branch a (dict) slide takes. -/
def slideKindOf (fs : List (String × JValue)) : SlideKind :=
  let t := (lookupField fs "type").getD (.str "content")
  if jstrEq t "title" then .title
  else if jstrEq t "section" then .section
  else .content

/-- Whether the list contains a run of six consecutive backticks, i.e.
whether the six-backtick regex matches anywhere. -/
def hasSix : List Char → Bool
  | [] => false
  | c :: cs => sixAt (c :: cs) || hasSix cs

/-!  Lemmas about the six-backtick removal.  -/

theorem removeSixAux_congr (f : Nat) : ∀ (g : Nat) (l : List Char),
    l.length ≤ f → l.length ≤ g → removeSixAux f l = removeSixAux g l := by
  induction f with
  | zero =>
    intro g l hf _
    have hl : l = [] := List.eq_nil_of_length_eq_zero (Nat.le_zero.mp hf)
    subst hl
    cases g <;> rfl
  | succ f ih =>
    intro g l hf hg
    cases l with
    | nil => cases g <;> rfl
    | cons c cs =>
      cases g with
      | zero => simp at hg
      | succ g =>
        simp only [removeSixAux]
        have hcs : cs.length ≤ f := by simpa using hf
        have hcs' : cs.length ≤ g := by simpa using hg
        by_cases h : sixAt (c :: cs) = true
        · simp only [h, if_true]
          exact ih g (cs.drop 5) (by simp; omega) (by simp; omega)
        · rw [Bool.not_eq_true] at h
          simp only [h, Bool.false_eq_true, if_false]
          rw [ih g cs hcs hcs']

theorem removeSix_nil : removeSix [] = [] := rfl

theorem removeSix_cons (c : Char) (cs : List Char) :
    removeSix (c :: cs) =
      if sixAt (c :: cs) then removeSix (cs.drop 5) else c :: removeSix cs := by
  show removeSixAux (cs.length + 1) (c :: cs) = _
  simp only [removeSixAux]
  by_cases h : sixAt (c :: cs) = true
  · simp only [h, if_true]
    exact removeSixAux_congr cs.length (cs.drop 5).length (cs.drop 5)
      (by simp) (le_refl _)
  · rw [Bool.not_eq_true] at h
    simp only [h, Bool.false_eq_true, if_false]
    rfl

theorem sixAt_short (l : List Char) (h : l.length < 6) : sixAt l = false := by
  unfold sixAt
  rw [beq_eq_false_iff_ne]
  intro he
  have := congrArg List.length he
  simp [List.length_take] at this
  omega

theorem sixAt_cons_ne {c : Char} (hc : c ≠ bq) (l : List Char) :
    sixAt (c :: l) = false := by
  unfold sixAt
  rw [beq_eq_false_iff_ne]
  intro he
  have : c ∈ c :: l.take 5 := List.mem_cons_self _ _
  rw [show (c :: l).take 6 = c :: l.take 5 from rfl] at he
  rw [he] at this
  exact hc (List.eq_of_mem_replicate this)

theorem sixAt_append_block {c : Char} (hc : c ≠ bq) (x y : List Char) :
    sixAt (x ++ c :: y) = sixAt x := by
  by_cases h6 : 6 ≤ x.length
  · unfold sixAt
    rw [List.take_append_eq_append_take, Nat.sub_eq_zero_of_le h6, List.take_zero,
      List.append_nil]
  · push_neg at h6
    have hx : sixAt x = false := sixAt_short x h6
    rw [hx]
    unfold sixAt
    rw [beq_eq_false_iff_ne]
    intro he
    have hmem : c ∈ (x ++ c :: y).take 6 := by
      rw [List.take_append_eq_append_take]
      refine List.mem_append_right _ ?_
      obtain ⟨k, hk⟩ : ∃ k, 6 - x.length = k + 1 := ⟨6 - x.length - 1, by omega⟩
      rw [hk, List.take_succ_cons]
      exact List.mem_cons_self _ _
    rw [he] at hmem
    exact hc (List.eq_of_mem_replicate hmem)

theorem hasSix_bqfree : ∀ l : List Char, (∀ c ∈ l, c ≠ bq) → hasSix l = false := by
  intro l
  induction l with
  | nil => intro _; rfl
  | cons c cs ih =>
    intro h
    simp only [hasSix, Bool.or_eq_false_iff]
    exact ⟨sixAt_cons_ne (h c (List.mem_cons_self _ _)) cs,
      ih fun d hd => h d (List.mem_cons_of_mem _ hd)⟩

theorem hasSix_short : ∀ l : List Char, l.length < 6 → hasSix l = false := by
  intro l
  induction l with
  | nil => intro _; rfl
  | cons c cs ih =>
    intro h
    simp only [hasSix, Bool.or_eq_false_iff]
    refine ⟨sixAt_short _ h, ih ?_⟩
    simp at h
    omega

theorem hasSix_append_block {c : Char} (hc : c ≠ bq) :
    ∀ x y : List Char, hasSix (x ++ c :: y) = (hasSix x || hasSix y) := by
  intro x
  induction x with
  | nil =>
    intro y
    simp only [List.nil_append, hasSix, sixAt_cons_ne hc, Bool.false_or]
  | cons d x ih =>
    intro y
    have h1 : hasSix ((d :: x) ++ c :: y) = (sixAt ((d :: x) ++ c :: y) || hasSix (x ++ c :: y)) := rfl
    have h2 : hasSix (d :: x) = (sixAt (d :: x) || hasSix x) := rfl
    rw [h1, h2, sixAt_append_block hc, ih y, Bool.or_assoc]

theorem removeSix_of_hasSix_false : ∀ l, hasSix l = false → removeSix l = l := by
  intro l
  induction l with
  | nil => intro _; rfl
  | cons c cs ih =>
    intro h
    simp only [hasSix, Bool.or_eq_false_iff] at h
    rw [removeSix_cons, h.1]
    simp [ih h.2]

/-- Removals of six-backtick runs never cross a non-backtick character. -/
theorem removeSix_around_aux {c : Char} (hc : c ≠ bq) :
    ∀ (n : Nat) (x y : List Char), x.length ≤ n →
      removeSix (x ++ c :: y) = removeSix x ++ c :: removeSix y := by
  intro n
  induction n with
  | zero =>
    intro x y hx
    have hx0 : x = [] := List.eq_nil_of_length_eq_zero (Nat.le_zero.mp hx)
    subst hx0
    simp only [List.nil_append, removeSix_nil]
    rw [removeSix_cons, sixAt_cons_ne hc]
    simp
  | succ n ih =>
    intro x y hx
    cases x with
    | nil =>
      simp only [List.nil_append, removeSix_nil]
      rw [removeSix_cons, sixAt_cons_ne hc]
      simp
    | cons d x' =>
      rw [List.cons_append, removeSix_cons]
      have hblock : sixAt (d :: (x' ++ c :: y)) = sixAt (d :: x') := by
        rw [show d :: (x' ++ c :: y) = (d :: x') ++ c :: y from rfl,
          sixAt_append_block hc]
      rw [hblock, removeSix_cons d x']
      by_cases h : sixAt (d :: x') = true
      · simp only [h, if_true]
        have hlen : 5 ≤ x'.length := by
          by_contra hcon
          push_neg at hcon
          rw [sixAt_short (d :: x') (by simp; omega)] at h
          exact Bool.false_ne_true h
        have hdrop : (x' ++ c :: y).drop 5 = x'.drop 5 ++ c :: y := by
          rw [List.drop_append_eq_append_drop, Nat.sub_eq_zero_of_le hlen, List.drop_zero]
        rw [hdrop]
        refine ih (x'.drop 5) y ?_
        simp only [List.length_cons] at hx
        simp only [List.length_drop]
        omega
      · rw [Bool.not_eq_true] at h
        simp only [h, Bool.false_eq_true, if_false]
        rw [ih x' y (by simpa using hx)]
        simp


/-- Master splitting lemma: a non-backtick character is untouched and the
removal acts independently on both sides of it. -/
theorem removeSix_around {c : Char} (hc : c ≠ bq) (x y : List Char) :
    removeSix (x ++ c :: y) = removeSix x ++ c :: removeSix y :=
  removeSix_around_aux hc x.length x y (le_refl _)

theorem removeSix_cons_ne {c : Char} (hc : c ≠ bq) (y : List Char) :
    removeSix (c :: y) = c :: removeSix y := by
  have := removeSix_around hc [] y
  simpa using this

theorem removeSix_append_ne {c : Char} (hc : c ≠ bq) (x : List Char) :
    removeSix (x ++ [c]) = removeSix x ++ [c] := by
  have := removeSix_around hc x []
  simpa using this

theorem removeSix_sublist_aux : ∀ (n : Nat) (l : List Char), l.length ≤ n →
    List.Sublist (removeSix l) l := by
  intro n
  induction n with
  | zero =>
    intro l hl
    have : l = [] := List.eq_nil_of_length_eq_zero (Nat.le_zero.mp hl)
    subst this
    simp [removeSix_nil]
  | succ n ih =>
    intro l hl
    cases l with
    | nil => simp [removeSix_nil]
    | cons c cs =>
      rw [removeSix_cons]
      by_cases h : sixAt (c :: cs) = true
      · simp only [h, if_true]
        refine List.Sublist.trans ?_ (List.sublist_cons_self c cs)
        refine List.Sublist.trans (ih (cs.drop 5) ?_) (List.drop_sublist 5 cs)
        simp only [List.length_cons] at hl
        simp only [List.length_drop]
        omega
      · rw [Bool.not_eq_true] at h
        simp only [h, Bool.false_eq_true, if_false]
        refine List.Sublist.cons₂ c (ih cs ?_)
        simp only [List.length_cons] at hl
        omega

/-- `removeSix` only deletes characters, so membership is preserved downward. -/
theorem removeSix_sublist (l : List Char) : List.Sublist (removeSix l) l :=
  removeSix_sublist_aux l.length l (le_refl _)

theorem not_mem_removeSix {c : Char} {l : List Char} (h : c ∉ l) :
    c ∉ removeSix l := fun hm => h ((removeSix_sublist l).subset hm)

/-!  Lemmas about find, rfind and strip.  -/

theorem findIdxC_not_mem {c : Char} : ∀ {l : List Char}, c ∉ l → findIdxC c l = none := by
  intro l
  induction l with
  | nil => intro _; rfl
  | cons d l ih =>
    intro h
    have hd : d ≠ c := fun he => h (he ▸ List.mem_cons_self d l)
    simp only [findIdxC, hd, if_false, ih (fun hm => h (List.mem_cons_of_mem d hm)),
      Option.map_none']

theorem findIdxC_cons_self (c : Char) (l : List Char) :
    findIdxC c (c :: l) = some 0 := by
  simp [findIdxC]

theorem findIdxC_append_first {c : Char} : ∀ {x : List Char}, c ∉ x → ∀ y : List Char,
    findIdxC c (x ++ c :: y) = some x.length := by
  intro x
  induction x with
  | nil => intro _ y; simpa using findIdxC_cons_self c y
  | cons d x ih =>
    intro h y
    have hd : d ≠ c := fun he => h (he ▸ List.mem_cons_self d x)
    have hih := ih (fun hm => h (List.mem_cons_of_mem d hm)) y
    show (if d = c then some 0 else (findIdxC c (x ++ c :: y)).map (· + 1)) =
      some (d :: x).length
    rw [if_neg hd, hih]
    rfl


theorem rfindIdxC_last {c : Char} (x y : List Char) (hy : c ∉ y) :
    rfindIdxC c (x ++ c :: y) = some x.length := by
  unfold rfindIdxC
  have hrev : (x ++ c :: y).reverse = y.reverse ++ c :: x.reverse := by
    simp
  rw [hrev, findIdxC_append_first (by simpa using hy) x.reverse]
  simp only [List.length_reverse, List.length_append, List.length_cons]
  congr 1
  omega

theorem dropWhile_append_of_head {p : Char → Bool} {d : Char} (hd : p d = false) :
    ∀ (pre l : List Char),
      (pre ++ d :: l).dropWhile p = pre.dropWhile p ++ d :: l := by
  intro pre
  induction pre with
  | nil =>
    intro l
    simp only [List.nil_append, List.dropWhile_nil]
    exact List.dropWhile_cons_of_neg (by simp [hd])
  | cons e pre ih =>
    intro l
    by_cases he : p e = true
    · rw [List.cons_append, List.dropWhile_cons_of_pos he, ih l,
        List.dropWhile_cons_of_pos he]
    · rw [Bool.not_eq_true] at he
      rw [List.cons_append, List.dropWhile_cons_of_neg (by simp [he]),
        List.dropWhile_cons_of_neg (by simp [he]), List.cons_append]

theorem pyDropTrail_append_of_last {d : Char} (hd : isPyWs d = false) (x post : List Char) :
    pyDropTrail ((x ++ [d]) ++ post) = (x ++ [d]) ++ pyDropTrail post := by
  unfold pyDropTrail
  have h1 : ((x ++ [d]) ++ post).reverse = post.reverse ++ d :: x.reverse := by
    simp
  rw [h1, dropWhile_append_of_head hd post.reverse x.reverse]
  simp

theorem pyDropTrail_of_last {d : Char} (hd : isPyWs d = false) (x : List Char) :
    pyDropTrail (x ++ [d]) = x ++ [d] := by
  have := pyDropTrail_append_of_last hd x []
  simpa [pyDropTrail] using this

theorem pyStrip_objText (mid : List Char) :
    pyStrip (lb :: mid ++ [rb]) = lb :: mid ++ [rb] := by
  unfold pyStrip
  have h1 : (lb :: mid ++ [rb]).dropWhile isPyWs = lb :: mid ++ [rb] :=
    List.dropWhile_cons_of_neg (by simp [isPyWs, lb])
  rw [h1]
  exact pyDropTrail_of_last (by rfl) (lb :: mid)

/-!  The cleaning phase on the response shapes of the claims.  -/

theorem lb_ne_bq : lb ≠ bq := by decide

theorem rb_ne_bq : rb ≠ bq := by decide

theorem nl_ne_bq : ('\n' : Char) ≠ bq := by decide

theorem braceTrim_spec (P M Q : List Char) (hP : lb ∉ P) (hQ : rb ∉ Q) :
    braceTrim (P ++ lb :: M ++ rb :: Q) = lb :: M ++ [rb] := by
  unfold braceTrim
  have hfind : findIdxC lb (P ++ lb :: M ++ rb :: Q) = some P.length := by
    have := findIdxC_append_first hP (M ++ rb :: Q)
    simp only [List.append_assoc] at this ⊢
    exact this
  simp only [hfind]
  have hdrop : (P ++ lb :: M ++ rb :: Q).drop P.length = lb :: M ++ rb :: Q := by
    have := List.drop_left P (lb :: M ++ rb :: Q)
    simp only [List.append_assoc] at this ⊢
    exact this
  have hs3 : (if 0 < P.length then (P ++ lb :: M ++ rb :: Q).drop P.length
      else P ++ lb :: M ++ rb :: Q) = lb :: M ++ rb :: Q := by
    rcases Nat.eq_zero_or_pos P.length with h0 | hpos
    · have hP0 : P = [] := List.eq_nil_of_length_eq_zero h0
      subst hP0
      simp
    · rw [if_pos hpos, hdrop]
  rw [hs3]
  have hrfind : rfindIdxC rb (lb :: M ++ rb :: Q) = some (M.length + 1) := by
    have := rfindIdxC_last (lb :: M) Q hQ
    simpa using this
  simp only [hrfind]
  cases Q with
  | nil =>
    have hcond : ¬(0 < M.length + 1 ∧
        M.length + 1 < (lb :: M ++ rb :: ([] : List Char)).length - 1) := by
      simp
    rw [if_neg hcond]
  | cons q Q' =>
    have hcond : 0 < M.length + 1 ∧
        M.length + 1 < (lb :: M ++ rb :: q :: Q').length - 1 := by
      constructor
      · omega
      · simp
    rw [if_pos hcond]
    have : lb :: M ++ rb :: q :: Q' = (lb :: M ++ [rb]) ++ q :: Q' := by simp
    rw [this]
    have htake := List.take_left (lb :: M ++ [rb]) (q :: Q')
    have hlen : (lb :: M ++ [rb]).length = M.length + 1 + 1 := by simp
    rw [hlen] at htake
    exact htake

theorem removeSix_objText (mid : List Char) :
    removeSix (lb :: mid ++ [rb]) = lb :: removeSix mid ++ [rb] := by
  have h1 : lb :: mid ++ [rb] = lb :: (mid ++ rb :: []) := by simp
  rw [h1, removeSix_cons_ne lb_ne_bq, removeSix_around rb_ne_bq]
  simp [removeSix_nil]

theorem cleanResponse_objText (mid : List Char) :
    cleanResponse (lb :: mid ++ [rb]) = lb :: removeSix (removeSix mid) ++ [rb] := by
  unfold cleanResponse
  rw [pyStrip_objText, removeSix_objText, removeSix_objText]
  have := braceTrim_spec [] (removeSix (removeSix mid)) [] (by simp) (by simp)
  simpa using this

theorem mem_pyDropTrail {c : Char} {l : List Char} (h : c ∈ pyDropTrail l) : c ∈ l := by
  unfold pyDropTrail at h
  rw [List.mem_reverse] at h
  have hsub : List.Sublist (List.dropWhile isPyWs l.reverse) l.reverse :=
    List.dropWhile_sublist _
  have := hsub.subset h
  rwa [List.mem_reverse] at this

theorem hasSix_fence_tag (tag : List Char) (htb : ∀ c ∈ tag, c ≠ bq) :
    hasSix (bq :: bq :: bq :: tag) = false := by
  cases tag with
  | nil => exact hasSix_short _ (by simp)
  | cons t tag' =>
    have ht : t ≠ bq := htb t (List.mem_cons_self _ _)
    have hblock := hasSix_append_block ht [bq, bq, bq] tag'
    have he : bq :: bq :: bq :: t :: tag' = [bq, bq, bq] ++ t :: tag' := rfl
    rw [he, hblock, hasSix_short [bq, bq, bq] (by simp),
      hasSix_bqfree tag' (fun d hd => htb d (List.mem_cons_of_mem t hd))]
    rfl

theorem removeSix_fencedForm (tag m : List Char) (htb : ∀ c ∈ tag, c ≠ bq) :
    removeSix (bq :: bq :: bq :: (tag ++ '\n' :: lb :: m ++ rb :: '\n' :: [bq, bq, bq])) =
      bq :: bq :: bq :: (tag ++ '\n' :: lb :: removeSix m ++ rb :: '\n' :: [bq, bq, bq]) := by
  have e1 : bq :: bq :: bq :: (tag ++ '\n' :: lb :: m ++ rb :: '\n' :: [bq, bq, bq]) =
      (bq :: bq :: bq :: tag) ++ '\n' :: (lb :: (m ++ rb :: '\n' :: [bq, bq, bq])) := by
    simp
  rw [e1, removeSix_around nl_ne_bq,
    removeSix_of_hasSix_false _ (hasSix_fence_tag tag htb),
    removeSix_cons_ne lb_ne_bq, removeSix_around rb_ne_bq,
    removeSix_of_hasSix_false ('\n' :: [bq, bq, bq]) (hasSix_short _ (by simp))]
  simp

theorem pyStrip_fenced (tag mid : List Char) :
    pyStrip (bq :: bq :: bq :: (tag ++ '\n' :: lb :: mid ++ rb :: '\n' :: [bq, bq, bq])) =
      bq :: bq :: bq :: (tag ++ '\n' :: lb :: mid ++ rb :: '\n' :: [bq, bq, bq]) := by
  unfold pyStrip
  rw [List.dropWhile_cons_of_neg (by simp [isPyWs, bq])]
  have e1 : bq :: bq :: bq :: (tag ++ '\n' :: lb :: mid ++ rb :: '\n' :: [bq, bq, bq]) =
      (bq :: bq :: bq :: (tag ++ '\n' :: lb :: mid ++ rb :: '\n' :: [bq, bq])) ++ [bq] := by
    simp
  rw [e1, pyDropTrail_of_last (by simp [isPyWs, bq])]

theorem cleanResponse_fenced (tag mid : List Char) (htb : ∀ c ∈ tag, c ≠ bq)
    (htl : lb ∉ tag) :
    cleanResponse (bq :: bq :: bq :: (tag ++ '\n' :: lb :: mid ++ rb :: '\n' :: [bq, bq, bq])) =
      lb :: removeSix (removeSix mid) ++ [rb] := by
  unfold cleanResponse
  rw [pyStrip_fenced, removeSix_fencedForm tag mid htb,
    removeSix_fencedForm tag (removeSix mid) htb]
  have e1 : bq :: bq :: bq ::
      (tag ++ '\n' :: lb :: removeSix (removeSix mid) ++ rb :: '\n' :: [bq, bq, bq]) =
      (bq :: bq :: bq :: (tag ++ ['\n'])) ++
        lb :: removeSix (removeSix mid) ++ rb :: ('\n' :: [bq, bq, bq]) := by
    simp
  rw [e1]
  apply braceTrim_spec
  · intro hm
    simp only [List.mem_cons, List.mem_append, List.mem_singleton] at hm
    rcases hm with h | h | h | h | h
    · exact lb_ne_bq h
    · exact lb_ne_bq h
    · exact lb_ne_bq h
    · exact htl h
    · exact absurd h (by decide)
  · intro hm
    exact absurd hm (by decide)

theorem pyStrip_prose (pre mid post : List Char) :
    pyStrip (pre ++ lb :: mid ++ rb :: post) =
      pre.dropWhile isPyWs ++ lb :: mid ++ rb :: pyDropTrail post := by
  unfold pyStrip
  have h1 : (pre ++ lb :: mid ++ rb :: post).dropWhile isPyWs =
      pre.dropWhile isPyWs ++ lb :: (mid ++ rb :: post) := by
    have := dropWhile_append_of_head (show isPyWs lb = false by rfl) pre (mid ++ rb :: post)
    simpa using this
  rw [h1]
  have h2 : pre.dropWhile isPyWs ++ lb :: (mid ++ rb :: post) =
      ((pre.dropWhile isPyWs ++ lb :: mid) ++ [rb]) ++ post := by simp
  rw [h2, pyDropTrail_append_of_last (show isPyWs rb = false by rfl)]
  simp

theorem removeSix_proseForm (p m q : List Char) :
    removeSix (p ++ lb :: m ++ rb :: q) =
      removeSix p ++ lb :: removeSix m ++ rb :: removeSix q := by
  have h1 : p ++ lb :: m ++ rb :: q = p ++ lb :: (m ++ rb :: q) := by simp
  rw [h1, removeSix_around lb_ne_bq, removeSix_around rb_ne_bq]
  simp

theorem cleanResponse_prose (pre mid post : List Char) (hpre : lb ∉ pre)
    (hpost : rb ∉ post) :
    cleanResponse (pre ++ lb :: mid ++ rb :: post) =
      lb :: removeSix (removeSix mid) ++ [rb] := by
  unfold cleanResponse
  rw [pyStrip_prose, removeSix_proseForm, removeSix_proseForm]
  apply braceTrim_spec
  · intro hm
    exact hpre ((List.dropWhile_sublist _).subset
      ((removeSix_sublist _).subset ((removeSix_sublist _).subset hm)))
  · intro hm
    exact hpost (mem_pyDropTrail
      ((removeSix_sublist _).subset ((removeSix_sublist _).subset hm)))

theorem toList_ofChars (l : List Char) : (ofChars l).toList = l := rfl

/-- Unfolding of `parse_llm_response` once the raw response is known to be
non-empty after stripping. -/
theorem parse_llm_response_eq (r : String) (h : (pyStrip r.toList).isEmpty = false) :
    parse_llm_response r =
      match jsonParse (cleanResponse r.toList) with
      | none => .error (.invalidJson (ofChars (r.toList.take 100)))
      | some v => validateStructure v := by
  unfold parse_llm_response
  simp only [h, Bool.false_eq_true, if_false]

/-- C2: for every JSON object text (an opening brace, arbitrary interior,
a closing brace) that validates successfully, wrapping it in a triple-backtick
fence — opener with an arbitrary language tag free of backticks and opening
braces, a newline, the object text, a newline, and a closing triple-backtick
fence — parses to exactly the same validated structure as the bare text. -/
theorem fenced_response_parses_like_bare (tag mid : List Char) (v : JValue)
    (htb : ∀ c ∈ tag, c ≠ bq) (htl : lb ∉ tag)
    (h : parse_llm_response (ofChars (lb :: mid ++ [rb])) = .ok v) :
    parse_llm_response
      (ofChars (bq :: bq :: bq ::
        (tag ++ '\n' :: lb :: mid ++ rb :: '\n' :: [bq, bq, bq]))) = .ok v := by
  rw [parse_llm_response_eq _ (by rw [toList_ofChars, pyStrip_objText]; rfl)] at h
  rw [toList_ofChars, cleanResponse_objText] at h
  rw [parse_llm_response_eq _ (by rw [toList_ofChars, pyStrip_fenced]; rfl)]
  rw [toList_ofChars, cleanResponse_fenced tag mid htb htl]
  cases hp : jsonParse (lb :: removeSix (removeSix mid) ++ [rb]) with
  | none =>
    rw [hp] at h
    exact absurd h (by simp)
  | some u =>
    rw [hp] at h
    simp only [hp]
    exact h

/-- C3: a response made of leading prose containing no opening brace, a JSON
object text that validates successfully, and trailing prose containing no
closing brace parses to exactly the same validated structure as the bare
object text between the first opening brace and the last closing brace. -/
theorem prose_wrapped_response_parses_like_bare (pre mid post : List Char) (v : JValue)
    (hpre : lb ∉ pre) (hpost : rb ∉ post)
    (h : parse_llm_response (ofChars (lb :: mid ++ [rb])) = .ok v) :
    parse_llm_response (ofChars (pre ++ lb :: mid ++ rb :: post)) = .ok v := by
  rw [parse_llm_response_eq _ (by rw [toList_ofChars, pyStrip_objText]; rfl)] at h
  rw [toList_ofChars, cleanResponse_objText] at h
  have hne : (pyStrip (pre ++ lb :: mid ++ rb :: post)).isEmpty = false := by
    rw [pyStrip_prose]
    simp [List.isEmpty_iff]
  rw [parse_llm_response_eq _ (by rw [toList_ofChars]; exact hne)]
  rw [toList_ofChars, cleanResponse_prose pre mid post hpre hpost]
  cases hp : jsonParse (lb :: removeSix (removeSix mid) ++ [rb]) with
  | none =>
    rw [hp] at h
    exact absurd h (by simp)
  | some u =>
    rw [hp] at h
    simp only [hp]
    exact h

/-- Witness for the fenced-response claim at the concrete response
consisting of a backtick fence with language tag `json` around the object
text of one title slide. -/
theorem fenced_response_parses_like_bare_witness :
    parse_llm_response
      (ofChars (bq :: bq :: bq ::
        ("json".toList ++ '\n' ::
          lb :: "\"slides\":[\x7b\"type\":\"title\",\"title\":\"Hi\"\x7d]".toList ++
          rb :: '\n' :: [bq, bq, bq]))) =
      .ok (.obj [("slides", .arr [.obj [("type", .str "title"), ("title", .str "Hi"),
        ("speaker_notes", .str "Notes for slide 1")]]),
        ("title", .str "Generated Presentation")]) :=
  fenced_response_parses_like_bare "json".toList
    "\"slides\":[\x7b\"type\":\"title\",\"title\":\"Hi\"\x7d]".toList
    (.obj [("slides", .arr [.obj [("type", .str "title"), ("title", .str "Hi"),
      ("speaker_notes", .str "Notes for slide 1")]]),
      ("title", .str "Generated Presentation")])
    (by decide) (by decide) (by rfl)

/-- Witness for the prose-wrapped-response claim at a concrete response with
leading and trailing commentary around the object text of one title slide. -/
theorem prose_wrapped_response_parses_like_bare_witness :
    parse_llm_response
      (ofChars ("Sure! Here is your outline: ".toList ++
        lb :: "\"slides\":[\x7b\"type\":\"title\",\"title\":\"Hi\"\x7d]".toList ++
        rb :: " Hope this helps.".toList)) =
      .ok (.obj [("slides", .arr [.obj [("type", .str "title"), ("title", .str "Hi"),
        ("speaker_notes", .str "Notes for slide 1")]]),
        ("title", .str "Generated Presentation")]) :=
  prose_wrapped_response_parses_like_bare "Sure! Here is your outline: ".toList
    "\"slides\":[\x7b\"type\":\"title\",\"title\":\"Hi\"\x7d]".toList
    " Hope this helps.".toList
    (.obj [("slides", .arr [.obj [("type", .str "title"), ("title", .str "Hi"),
      ("speaker_notes", .str "Notes for slide 1")]]),
      ("title", .str "Generated Presentation")])
    (by decide) (by decide) (by rfl)

/-!  Lemmas about dict operations and the defaulting pass.  -/

theorem lookupField_append (a b : List (String × JValue)) (k : String) :
    lookupField (a ++ b) k =
      match lookupField a k with
      | some v => some v
      | none => lookupField b k := by
  induction a with
  | nil => simp [lookupField]
  | cons p a ih =>
    obtain ⟨k', v'⟩ := p
    by_cases h : k' = k
    · simp [lookupField, h]
    · simp only [List.cons_append, lookupField, h, if_false, List.append_eq, ih]

theorem lookupField_setDefaultField_self (fs : List (String × JValue)) (k : String)
    (v : JValue) :
    lookupField (setDefaultField fs k v) k = some ((lookupField fs k).getD v) := by
  unfold setDefaultField hasKey
  cases hl : lookupField fs k with
  | some w => simp [hl]
  | none =>
    simp only [hl, Option.isSome_none, Bool.false_eq_true, if_false, Option.getD_none]
    rw [lookupField_append, hl]
    simp [lookupField]

theorem lookupField_setDefaultField_ne (fs : List (String × JValue)) (k k' : String)
    (v : JValue) (h : k' ≠ k) :
    lookupField (setDefaultField fs k v) k' = lookupField fs k' := by
  unfold setDefaultField
  by_cases hk : hasKey fs k
  · simp [hk]
  · simp only [hk, Bool.false_eq_true, if_false]
    rw [lookupField_append]
    cases hl : lookupField fs k' with
    | some w => simp
    | none => simp [lookupField, Ne.symm h]

theorem lookupField_setField_self (fs : List (String × JValue)) (k : String) (v : JValue) :
    lookupField (setField fs k v) k = some v := by
  induction fs with
  | nil => simp [setField, lookupField]
  | cons p fs ih =>
    obtain ⟨k', v'⟩ := p
    by_cases h : k' = k
    · simp [setField, lookupField, h]
    · simp only [setField, lookupField, h, if_false, ih]

theorem lookupField_setField_ne (fs : List (String × JValue)) (k k' : String) (v : JValue)
    (h : k' ≠ k) :
    lookupField (setField fs k v) k' = lookupField fs k' := by
  induction fs with
  | nil => simp [setField, lookupField, Ne.symm h]
  | cons p fs ih =>
    obtain ⟨k0, v0⟩ := p
    by_cases h0 : k0 = k
    · subst h0
      simp [setField, lookupField, Ne.symm h]
    · by_cases h1 : k0 = k'
      · simp [setField, lookupField, h0, h1, h]
      · simp [setField, lookupField, h0, h1, ih]

theorem hasKey_setDefaultField_self (fs : List (String × JValue)) (k : String) (v : JValue) :
    hasKey (setDefaultField fs k v) k = true := by
  unfold hasKey
  rw [lookupField_setDefaultField_self]
  rfl

theorem hasKey_setDefaultField_ne (fs : List (String × JValue)) (k k' : String) (v : JValue)
    (h : k' ≠ k) :
    hasKey (setDefaultField fs k v) k' = hasKey fs k' := by
  unfold hasKey
  rw [lookupField_setDefaultField_ne fs k k' v h]

theorem setDefaultField_of_hasKey (fs : List (String × JValue)) (k : String) (v : JValue)
    (h : hasKey fs k = true) : setDefaultField fs k v = fs := by
  unfold setDefaultField
  simp [h]

theorem lookupField_fixFields_type (i : Nat) (fs : List (String × JValue)) :
    lookupField (fixFields i fs) "type" =
      some ((lookupField fs "type").getD (.str "content")) := by
  simp only [fixFields]
  have h3 : lookupField (setDefaultField (setDefaultField (setDefaultField fs "type"
      (.str "content")) "title" (.str ("Slide " ++ toString (i + 1)))) "speaker_notes"
      (.str ("Notes for slide " ++ toString (i + 1)))) "type" =
      some ((lookupField fs "type").getD (.str "content")) := by
    rw [lookupField_setDefaultField_ne _ _ _ _ (by decide),
      lookupField_setDefaultField_ne _ _ _ _ (by decide),
      lookupField_setDefaultField_self]
  split
  · rw [lookupField_setField_ne _ _ _ _ (by decide), h3]
  · exact h3

theorem lookupField_fixFields_title (i : Nat) (fs : List (String × JValue)) :
    lookupField (fixFields i fs) "title" =
      some ((lookupField fs "title").getD (.str ("Slide " ++ toString (i + 1)))) := by
  simp only [fixFields]
  have h3 : lookupField (setDefaultField (setDefaultField (setDefaultField fs "type"
      (.str "content")) "title" (.str ("Slide " ++ toString (i + 1)))) "speaker_notes"
      (.str ("Notes for slide " ++ toString (i + 1)))) "title" =
      some ((lookupField fs "title").getD (.str ("Slide " ++ toString (i + 1)))) := by
    rw [lookupField_setDefaultField_ne _ _ _ _ (by decide),
      lookupField_setDefaultField_self,
      lookupField_setDefaultField_ne _ _ _ _ (by decide)]
  split
  · rw [lookupField_setField_ne _ _ _ _ (by decide), h3]
  · exact h3

theorem lookupField_fixFields_notes (i : Nat) (fs : List (String × JValue)) :
    lookupField (fixFields i fs) "speaker_notes" =
      some ((lookupField fs "speaker_notes").getD
        (.str ("Notes for slide " ++ toString (i + 1)))) := by
  simp only [fixFields]
  have h3 : lookupField (setDefaultField (setDefaultField (setDefaultField fs "type"
      (.str "content")) "title" (.str ("Slide " ++ toString (i + 1)))) "speaker_notes"
      (.str ("Notes for slide " ++ toString (i + 1)))) "speaker_notes" =
      some ((lookupField fs "speaker_notes").getD
        (.str ("Notes for slide " ++ toString (i + 1)))) := by
    rw [lookupField_setDefaultField_self,
      lookupField_setDefaultField_ne _ _ _ _ (by decide),
      lookupField_setDefaultField_ne _ _ _ _ (by decide)]
  split
  · rw [lookupField_setField_ne _ _ _ _ (by decide), h3]
  · exact h3

/-- The guard of the content-defaulting branch, expressed on the original
slide fields. -/
def contentGuard (fs : List (String × JValue)) : Bool :=
  jstrEq ((lookupField fs "type").getD (.str "content")) "content" &&
    (lookupField fs "content").isNone

theorem lookupField_fixFields_content (i : Nat) (fs : List (String × JValue)) :
    lookupField (fixFields i fs) "content" =
      (if contentGuard fs then some (.arr [.str "Main point for this slide"])
       else lookupField fs "content") := by
  simp only [fixFields]
  have hT : lookupField (setDefaultField (setDefaultField (setDefaultField fs "type"
      (.str "content")) "title" (.str ("Slide " ++ toString (i + 1)))) "speaker_notes"
      (.str ("Notes for slide " ++ toString (i + 1)))) "type" =
      some ((lookupField fs "type").getD (.str "content")) := by
    rw [lookupField_setDefaultField_ne _ _ _ _ (by decide),
      lookupField_setDefaultField_ne _ _ _ _ (by decide),
      lookupField_setDefaultField_self]
  have hC : lookupField (setDefaultField (setDefaultField (setDefaultField fs "type"
      (.str "content")) "title" (.str ("Slide " ++ toString (i + 1)))) "speaker_notes"
      (.str ("Notes for slide " ++ toString (i + 1)))) "content" =
      lookupField fs "content" := by
    rw [lookupField_setDefaultField_ne _ _ _ _ (by decide),
      lookupField_setDefaultField_ne _ _ _ _ (by decide),
      lookupField_setDefaultField_ne _ _ _ _ (by decide)]
  have hHK : hasKey (setDefaultField (setDefaultField (setDefaultField fs "type"
      (.str "content")) "title" (.str ("Slide " ++ toString (i + 1)))) "speaker_notes"
      (.str ("Notes for slide " ++ toString (i + 1)))) "content" =
      (lookupField fs "content").isSome := by
    unfold hasKey
    rw [hC]
  rw [hT, hHK]
  unfold contentGuard
  cases hgt : jstrEq ((lookupField fs "type").getD (.str "content")) "content" with
  | false =>
    simp only [hgt, Bool.false_and, Bool.false_eq_true, if_false]
    exact hC
  | true =>
    cases hl : lookupField fs "content" with
    | none =>
      rw [hl] at hC
      simp only [hgt, hl, Option.isSome_none, Bool.not_false, Bool.true_and,
        Option.isNone_none, if_true]
      rw [lookupField_setField_self]
    | some w =>
      rw [hl] at hC
      simp only [hgt, hl, Option.isSome_some, Bool.not_true, Bool.and_false,
        Bool.true_and, Option.isNone_some, Bool.false_eq_true, if_false]
      exact hC

theorem hasKey_fixFields_type (i : Nat) (fs : List (String × JValue)) :
    hasKey (fixFields i fs) "type" = true := by
  unfold hasKey
  rw [lookupField_fixFields_type]
  rfl

theorem hasKey_fixFields_title (i : Nat) (fs : List (String × JValue)) :
    hasKey (fixFields i fs) "title" = true := by
  unfold hasKey
  rw [lookupField_fixFields_title]
  rfl

theorem hasKey_fixFields_notes (i : Nat) (fs : List (String × JValue)) :
    hasKey (fixFields i fs) "speaker_notes" = true := by
  unfold hasKey
  rw [lookupField_fixFields_notes]
  rfl

theorem fixFields_idem (i : Nat) (fs : List (String × JValue)) :
    fixFields i (fixFields i fs) = fixFields i fs := by
  have hmt : (match lookupField (fixFields i fs) "type" with
      | some t => jstrEq t "content"
      | none => false) =
      jstrEq ((lookupField fs "type").getD (.str "content")) "content" := by
    rw [lookupField_fixFields_type]
  have hck : (jstrEq ((lookupField fs "type").getD (.str "content")) "content" &&
      !hasKey (fixFields i fs) "content") = false := by
    cases hgt : jstrEq ((lookupField fs "type").getD (.str "content")) "content" with
    | false => rfl
    | true =>
      have hh : hasKey (fixFields i fs) "content" = true := by
        unfold hasKey
        rw [lookupField_fixFields_content]
        unfold contentGuard
        rw [hgt]
        cases hl : lookupField fs "content" with
        | none => simp
        | some w => simp [hl]
      rw [hh]
      rfl
  conv_lhs => rw [fixFields]
  rw [setDefaultField_of_hasKey _ _ _ (hasKey_fixFields_type i fs),
    setDefaultField_of_hasKey _ _ _ (hasKey_fixFields_title i fs),
    setDefaultField_of_hasKey _ _ _ (hasKey_fixFields_notes i fs),
    hmt, hck]
  rfl

theorem fixSlide_idem (i : Nat) (s s' : JValue) (h : fixSlide i s = .ok s') :
    fixSlide i s' = .ok s' := by
  cases s with
  | obj fs =>
    simp only [fixSlide] at h
    have hs' : s' = .obj (fixFields i fs) := by
      cases h
      rfl
    subst hs'
    simp only [fixSlide, fixFields_idem]
  | null => exact absurd h (by simp [fixSlide])
  | bool b => exact absurd h (by simp [fixSlide])
  | num lit => exact absurd h (by simp [fixSlide])
  | str st => exact absurd h (by simp [fixSlide])
  | arr el => exact absurd h (by simp [fixSlide])

theorem fixSlides_length : ∀ (i : Nat) (l l' : List JValue),
    fixSlides i l = .ok l' → l'.length = l.length := by
  intro i l
  induction l generalizing i with
  | nil =>
    intro l' h
    simp only [fixSlides] at h
    cases h
    rfl
  | cons s rest ih =>
    intro l' h
    simp only [fixSlides] at h
    cases hs : fixSlide i s with
    | error e => rw [hs] at h; exact absurd h (by simp)
    | ok s' =>
      rw [hs] at h
      cases hr : fixSlides (i + 1) rest with
      | error e => rw [hr] at h; exact absurd h (by simp)
      | ok rest' =>
        rw [hr] at h
        cases h
        simp [ih (i + 1) rest' hr]

theorem fixSlides_idem : ∀ (i : Nat) (l l' : List JValue),
    fixSlides i l = .ok l' → fixSlides i l' = .ok l' := by
  intro i l
  induction l generalizing i with
  | nil =>
    intro l' h
    simp only [fixSlides] at h
    cases h
    rfl
  | cons s rest ih =>
    intro l' h
    simp only [fixSlides] at h
    cases hs : fixSlide i s with
    | error e => rw [hs] at h; exact absurd h (by simp)
    | ok s' =>
      rw [hs] at h
      cases hr : fixSlides (i + 1) rest with
      | error e => rw [hr] at h; exact absurd h (by simp)
      | ok rest' =>
        rw [hr] at h
        cases h
        simp only [fixSlides]
        rw [fixSlide_idem i s s' hs, ih (i + 1) rest' hr]

theorem setField_setField_same (fs : List (String × JValue)) (k : String) (v : JValue) :
    setField (setField fs k v) k v = setField fs k v := by
  induction fs with
  | nil => simp [setField]
  | cons p fs ih =>
    obtain ⟨k0, v0⟩ := p
    by_cases h : k0 = k
    · simp [setField, h]
    · simp [setField, h, ih]

theorem validateStructure_ok_inv (j v : JValue) (h : validateStructure j = .ok v) :
    ∃ fields slides slides',
      j = .obj fields ∧
      lookupField fields "slides" = some (.arr slides) ∧
      slides.isEmpty = false ∧
      fixSlides 0 slides = .ok slides' ∧
      v = .obj (setField (setDefaultField fields "title" (.str "Generated Presentation"))
        "slides" (.arr slides')) := by
  cases j with
  | obj fields =>
    simp only [validateStructure] at h
    cases hsl : lookupField fields "slides" with
    | none => simp only [hsl] at h; exact absurd h (by simp)
    | some sv =>
      simp only [hsl] at h
      cases sv with
      | arr slides =>
        cases hne : slides.isEmpty with
        | true => simp only [hne, if_true] at h; exact absurd h (by simp)
        | false =>
          simp only [hne, Bool.false_eq_true, if_false] at h
          cases hfix : fixSlides 0 slides with
          | error e => simp only [hfix] at h; exact absurd h (by simp)
          | ok slides' =>
            simp only [hfix] at h
            cases h
            exact ⟨fields, slides, slides', rfl, hsl, hne, hfix, rfl⟩
      | null => simp at h
      | bool b => simp at h
      | num lit => simp at h
      | str s => simp at h
      | obj o => simp at h
  | null => exact absurd h (by simp [validateStructure])
  | bool b => exact absurd h (by simp [validateStructure])
  | num lit => exact absurd h (by simp [validateStructure])
  | str s => exact absurd h (by simp [validateStructure])
  | arr el => exact absurd h (by simp [validateStructure])

/-- C9: validation is idempotent — running the validation and defaulting
pass a second time on any structure it successfully produced returns that
structure unchanged: no defaulting rule is reapplied and no present field
is altered. -/
theorem validation_pass_idempotent (j v : JValue) (h : validateStructure j = .ok v) :
    validateStructure v = .ok v := by
  obtain ⟨fields, slides, slides', hj, hsl, hne, hfix, hv⟩ := validateStructure_ok_inv j v h
  subst hv
  simp only [validateStructure]
  rw [lookupField_setField_self]
  have hlen : slides'.length = slides.length := fixSlides_length 0 slides slides' hfix
  have hne' : slides'.isEmpty = false := by
    cases slides' with
    | nil =>
      cases slides with
      | nil => simp at hne
      | cons a l => simp at hlen
    | cons a l => rfl
  simp only [hne', Bool.false_eq_true, if_false]
  have hkt : hasKey (setField (setDefaultField fields "title"
      (.str "Generated Presentation")) "slides" (.arr slides')) "title" = true := by
    unfold hasKey
    rw [lookupField_setField_ne _ _ _ _ (by decide), lookupField_setDefaultField_self]
    rfl
  rw [setDefaultField_of_hasKey _ _ _ hkt]
  simp only [fixSlides_idem 0 slides slides' hfix]
  rw [setField_setField_same]

/-- Witness for idempotence at the validated output of a minimal outline. -/
theorem validation_pass_idempotent_witness :
    validateStructure (.obj [("slides", .arr [.obj [("type", .str "content"),
      ("title", .str "Slide 1"), ("speaker_notes", .str "Notes for slide 1"),
      ("content", .arr [.str "Main point for this slide"])]]),
      ("title", .str "Generated Presentation")]) =
    .ok (.obj [("slides", .arr [.obj [("type", .str "content"),
      ("title", .str "Slide 1"), ("speaker_notes", .str "Notes for slide 1"),
      ("content", .arr [.str "Main point for this slide"])]]),
      ("title", .str "Generated Presentation")]) :=
  validation_pass_idempotent (.obj [("slides", .arr [.obj []])]) _ (by rfl)

theorem fixSlides_spec : ∀ (i : Nat) (l : List JValue),
    (∀ s ∈ l, ∃ fs, s = .obj fs) →
    ∃ l', fixSlides i l = .ok l' ∧ l'.length = l.length ∧
      ∀ (k : Nat) (fs : List (String × JValue)), l[k]? = some (.obj fs) →
        l'[k]? = some (.obj (fixFields (i + k) fs)) := by
  intro i l
  induction l generalizing i with
  | nil =>
    intro _
    refine ⟨[], rfl, rfl, ?_⟩
    intro k fs hk
    simp at hk
  | cons s rest ih =>
    intro hall
    obtain ⟨fs0, hs0⟩ := hall s (List.mem_cons_self _ _)
    obtain ⟨rest', hr, hlen, hidx⟩ :=
      ih (i + 1) (fun t ht => hall t (List.mem_cons_of_mem _ ht))
    subst hs0
    refine ⟨.obj (fixFields i fs0) :: rest', ?_, by simp [hlen], ?_⟩
    · simp only [fixSlides, fixSlide]
      rw [hr]
    · intro k fs hk
      cases k with
      | zero =>
        simp only [List.getElem?_cons_zero, Option.some.injEq, JValue.obj.injEq] at hk
        subst hk
        simp
      | succ k' =>
        simp only [List.getElem?_cons_succ] at hk ⊢
        have := hidx k' fs hk
        rwa [show i + 1 + k' = i + (k' + 1) by omega] at this

/-- C1 (amended): for every response whose cleaned text parses to a JSON
object with a non-empty `slides` array all of whose entries are objects,
the generator returns a structure with exactly as many slides; per slide,
by index, `type`, `title` and `speaker_notes` are kept when present and
defaulted when missing, and `content` is defaulted (to one placeholder
bullet) exactly when the slide's effective type is `content` and the key is
missing; the presentation `title` defaults to "Generated Presentation". -/
theorem generation_preserves_slide_count_and_defaults (r : String)
    (fields : List (String × JValue)) (slides : List JValue)
    (hne : (pyStrip r.toList).isEmpty = false)
    (hp : jsonParse (cleanResponse r.toList) = some (.obj fields))
    (hsl : lookupField fields "slides" = some (.arr slides))
    (hnonempty : slides ≠ [])
    (hobj : ∀ s ∈ slides, ∃ fs, s = .obj fs) :
    ∃ fields' slides',
      parse_llm_response r = .ok (.obj fields') ∧
      lookupField fields' "slides" = some (.arr slides') ∧
      slides'.length = slides.length ∧
      lookupField fields' "title" =
        some ((lookupField fields "title").getD (.str "Generated Presentation")) ∧
      ∀ (k : Nat) (fs : List (String × JValue)), slides[k]? = some (.obj fs) →
        ∃ fs', slides'[k]? = some (.obj fs') ∧
          lookupField fs' "type" = some ((lookupField fs "type").getD (.str "content")) ∧
          lookupField fs' "title" =
            some ((lookupField fs "title").getD (.str ("Slide " ++ toString (k + 1)))) ∧
          lookupField fs' "speaker_notes" =
            some ((lookupField fs "speaker_notes").getD
              (.str ("Notes for slide " ++ toString (k + 1)))) ∧
          lookupField fs' "content" =
            (if contentGuard fs then some (.arr [.str "Main point for this slide"])
             else lookupField fs "content") := by
  obtain ⟨slides', hfix, hlen, hidx⟩ := fixSlides_spec 0 slides hobj
  refine ⟨setField (setDefaultField fields "title" (.str "Generated Presentation"))
    "slides" (.arr slides'), slides', ?_, ?_, hlen, ?_, ?_⟩
  · rw [parse_llm_response_eq r hne]
    simp only [hp, validateStructure, hsl]
    have hie : slides.isEmpty = false := by
      cases slides with
      | nil => exact absurd rfl hnonempty
      | cons a l => rfl
    simp only [hie, Bool.false_eq_true, if_false, hfix]
  · rw [lookupField_setField_self]
  · rw [lookupField_setField_ne _ _ _ _ (by decide), lookupField_setDefaultField_self]
  · intro k fs hk
    refine ⟨fixFields k fs, ?_, lookupField_fixFields_type k fs,
      lookupField_fixFields_title k fs, lookupField_fixFields_notes k fs,
      lookupField_fixFields_content k fs⟩
    have := hidx k fs hk
    rwa [Nat.zero_add] at this

/-- C1 counterexample: on the response consisting of a JSON object whose
non-empty slides array holds the integer 5, the generator does not return a
structure of one slide — the defaulting loop raises `AttributeError`
(`slide.setdefault` on an int), which surfaces as the generic parse-failure
error. -/
theorem generation_fails_on_nondict_slide :
    parse_llm_response "\x7b\"slides\":[5]\x7d" =
      .error (.parseFailure "'int' object has no attribute 'setdefault'") := by
  rfl

/-- Witness for the amended generation claim at the response of the spec's
end-to-end scenario, one title slide with title "Hi". -/
theorem generation_preserves_slide_count_and_defaults_witness :
    ∃ fields' slides',
      parse_llm_response "\x7b\"slides\":[\x7b\"type\":\"title\",\"title\":\"Hi\"\x7d]\x7d" =
        .ok (.obj fields') ∧
      lookupField fields' "slides" = some (.arr slides') ∧
      slides'.length = [JValue.obj [("type", .str "title"), ("title", .str "Hi")]].length ∧
      lookupField fields' "title" =
        some ((lookupField [("slides", JValue.arr [.obj [("type", .str "title"),
          ("title", .str "Hi")]])] "title").getD (.str "Generated Presentation")) ∧
      ∀ (k : Nat) (fs : List (String × JValue)),
        [JValue.obj [("type", .str "title"), ("title", .str "Hi")]][k]? =
          some (.obj fs) →
        ∃ fs', slides'[k]? = some (.obj fs') ∧
          lookupField fs' "type" = some ((lookupField fs "type").getD (.str "content")) ∧
          lookupField fs' "title" =
            some ((lookupField fs "title").getD (.str ("Slide " ++ toString (k + 1)))) ∧
          lookupField fs' "speaker_notes" =
            some ((lookupField fs "speaker_notes").getD
              (.str ("Notes for slide " ++ toString (k + 1)))) ∧
          lookupField fs' "content" =
            (if contentGuard fs then some (.arr [.str "Main point for this slide"])
             else lookupField fs "content") :=
  generation_preserves_slide_count_and_defaults
    "\x7b\"slides\":[\x7b\"type\":\"title\",\"title\":\"Hi\"\x7d]\x7d"
    [("slides", .arr [.obj [("type", .str "title"), ("title", .str "Hi")]])]
    [.obj [("type", .str "title"), ("title", .str "Hi")]]
    (by rfl) (by rfl) (by rfl) (by simp)
    (by intro s hs
        simp only [List.mem_singleton] at hs
        exact ⟨[("type", .str "title"), ("title", .str "Hi")], hs⟩)

/-- C4: whenever the cleaned text parses as JSON but the root is not an
object, or the object lacks a `slides` key, or `slides` is not a non-empty
array, the generator fails through the generic-exception branch, whose
error is distinct by construction from the JSON-syntax branch. -/
theorem bad_structure_rejected_distinct_from_syntax (r : String) (v : JValue)
    (hne : (pyStrip r.toList).isEmpty = false)
    (hp : jsonParse (cleanResponse r.toList) = some v)
    (hbad : (∀ fields, v ≠ .obj fields) ∨
      (∃ fields, v = .obj fields ∧ lookupField fields "slides" = none) ∨
      (∃ fields sv, v = .obj fields ∧ lookupField fields "slides" = some sv ∧
        ∀ l, sv = .arr l → l = [])) :
    ∃ m, parse_llm_response r = .error (.parseFailure m) ∧
      ∀ excerpt, (PErr.parseFailure m : PErr) ≠ .invalidJson excerpt := by
  rw [parse_llm_response_eq r hne]
  simp only [hp]
  rcases hbad with hno | ⟨fields, hv, hsl⟩ | ⟨fields, sv, hv, hsl, harr⟩
  · cases v with
    | obj fs => exact absurd rfl (hno fs)
    | null =>
      exact ⟨"Response is not a JSON object", by simp [validateStructure], fun e => by simp⟩
    | bool b =>
      exact ⟨"Response is not a JSON object", by simp [validateStructure], fun e => by simp⟩
    | num lit =>
      exact ⟨"Response is not a JSON object", by simp [validateStructure], fun e => by simp⟩
    | str s =>
      exact ⟨"Response is not a JSON object", by simp [validateStructure], fun e => by simp⟩
    | arr el =>
      exact ⟨"Response is not a JSON object", by simp [validateStructure], fun e => by simp⟩
  · subst hv
    refine ⟨"No 'slides' key found in response", ?_, fun e => by simp⟩
    simp [validateStructure, hsl]
  · subst hv
    cases sv with
    | arr l =>
      have hl : l = [] := harr l rfl
      subst hl
      refine ⟨"'slides' must be a non-empty array", ?_, fun e => by simp⟩
      simp [validateStructure, hsl]
    | null =>
      refine ⟨"'slides' must be a non-empty array", ?_, fun e => by simp⟩
      simp [validateStructure, hsl]
    | bool b =>
      refine ⟨"'slides' must be a non-empty array", ?_, fun e => by simp⟩
      simp [validateStructure, hsl]
    | num lit =>
      refine ⟨"'slides' must be a non-empty array", ?_, fun e => by simp⟩
      simp [validateStructure, hsl]
    | str s =>
      refine ⟨"'slides' must be a non-empty array", ?_, fun e => by simp⟩
      simp [validateStructure, hsl]
    | obj o =>
      refine ⟨"'slides' must be a non-empty array", ?_, fun e => by simp⟩
      simp [validateStructure, hsl]

/-- Witness for the bad-structure claim at the response whose JSON root is
the array [1, 2]. -/
theorem bad_structure_rejected_distinct_from_syntax_witness :
    ∃ m, parse_llm_response "[1, 2]" = .error (.parseFailure m) ∧
      ∀ excerpt, (PErr.parseFailure m : PErr) ≠ .invalidJson excerpt :=
  bad_structure_rejected_distinct_from_syntax "[1, 2]"
    (.arr [.num "1", .num "2"]) (by rfl) (by rfl)
    (Or.inl (fun fields h => by simp at h))

/-- C5: a raw response that is empty or all-whitespace fails through the
dedicated empty-response guards of both `process_text_to_slides` and
`_parse_llm_response`, never reaching the JSON parser. -/
theorem whitespace_response_rejected (r : String)
    (h : ∀ c ∈ r.toList, isPyWs c = true) :
    process_text_to_slides r = .error "LLM processing failed: Empty response from LLM" ∧
    parse_llm_response r = .error (.parseFailure "Empty response from LLM") := by
  have hs : pyStrip r.toList = [] := by
    unfold pyStrip pyDropTrail
    have h1 : r.toList.dropWhile isPyWs = [] := by
      rw [List.dropWhile_eq_nil_iff]
      exact fun c hc => h c hc
    rw [h1]
    rfl
  have hempty : (pyStrip r.toList).isEmpty = true := by rw [hs]; rfl
  constructor
  · unfold process_text_to_slides
    simp only [hempty, if_true]
  · unfold parse_llm_response
    simp only [hempty, if_true]

/-- Witness for the whitespace-response claim at a blank-and-newline response. -/
theorem whitespace_response_rejected_witness :
    process_text_to_slides " \n\t  " =
      .error "LLM processing failed: Empty response from LLM" ∧
    parse_llm_response " \n\t  " = .error (.parseFailure "Empty response from LLM") :=
  whitespace_response_rejected " \n\t  " (by decide)

/-- C6: when cleaning does not yield parseable JSON, the failure goes
through the `json.JSONDecodeError` branch, whose message embeds exactly the
first 100 characters of the original raw response (not the cleaned text). -/
theorem syntax_failure_reports_original_prefix (r : String)
    (hne : (pyStrip r.toList).isEmpty = false)
    (hp : jsonParse (cleanResponse r.toList) = none) :
    parse_llm_response r = .error (.invalidJson (ofChars (r.toList.take 100))) ∧
    errMessage (.invalidJson (ofChars (r.toList.take 100))) =
      "Invalid JSON from LLM. Response started with: " ++
        ofChars (r.toList.take 100) ++ "..." := by
  constructor
  · rw [parse_llm_response_eq r hne]
    simp only [hp]
  · rfl

/-- Witness for the syntax-failure claim at a prose-only response. -/
theorem syntax_failure_reports_original_prefix_witness :
    parse_llm_response "I cannot produce JSON for that." =
      .error (.invalidJson (ofChars ("I cannot produce JSON for that.".toList.take 100))) ∧
    errMessage (.invalidJson (ofChars ("I cannot produce JSON for that.".toList.take 100))) =
      "Invalid JSON from LLM. Response started with: " ++
        ofChars ("I cannot produce JSON for that.".toList.take 100) ++ "..." :=
  syntax_failure_reports_original_prefix "I cannot produce JSON for that."
    (by rfl) (by rfl)

/-- C7 (amended): in the per-slide defaulting pass, a content-type slide
receives the single placeholder bullet exactly when its `content` key is
missing; a present `content` value — even an empty array — is left
unchanged. -/
theorem content_defaulted_only_when_missing (i : Nat) (fs : List (String × JValue))
    (hc : jstrEq ((lookupField fs "type").getD (.str "content")) "content" = true) :
    (lookupField fs "content" = none →
      lookupField (fixFields i fs) "content" =
        some (.arr [.str "Main point for this slide"])) ∧
    ∀ w, lookupField fs "content" = some w →
      lookupField (fixFields i fs) "content" = some w := by
  constructor
  · intro hnone
    rw [lookupField_fixFields_content]
    unfold contentGuard
    rw [hc, hnone]
    rfl
  · intro w hw
    rw [lookupField_fixFields_content]
    unfold contentGuard
    rw [hc, hw]
    rfl

/-- C7 counterexample: a content slide whose `content` is present but empty
keeps the empty array after validation instead of being normalized to one
placeholder bullet. -/
theorem empty_content_list_kept :
    parse_llm_response "\x7b\"slides\":[\x7b\"type\":\"content\",\"content\":[]\x7d]\x7d" =
      .ok (.obj [("slides", .arr [.obj [("type", .str "content"), ("content", .arr []),
        ("title", .str "Slide 1"), ("speaker_notes", .str "Notes for slide 1")]]),
        ("title", .str "Generated Presentation")]) ∧
    JValue.arr [] ≠ JValue.arr [.str "Main point for this slide"] := by
  exact ⟨by rfl, by simp⟩

/-- Witness for the content-defaulting claim at a slide carrying only its
type. -/
theorem content_defaulted_only_when_missing_witness :
    (lookupField [("type", JValue.str "content")] "content" = none →
      lookupField (fixFields 0 [("type", JValue.str "content")]) "content" =
        some (.arr [.str "Main point for this slide"])) ∧
    ∀ w, lookupField [("type", JValue.str "content")] "content" = some w →
      lookupField (fixFields 0 [("type", JValue.str "content")]) "content" = some w :=
  content_defaulted_only_when_missing 0 [("type", JValue.str "content")] (by rfl)

/-- C8 (amended): validation defaults a missing slide `type` to `content`
but keeps a present raw value even outside the closed set; the closed set
is enforced only by the renderer's dispatch, which routes every type other
than the strings "title" and "section" to the content branch. -/
theorem unknown_type_kept_and_rendered_as_content (i : Nat)
    (fs : List (String × JValue)) :
    lookupField (fixFields i fs) "type" =
      some ((lookupField fs "type").getD (.str "content")) ∧
    ∀ t, lookupField fs "type" = some t → jstrEq t "title" = false →
      jstrEq t "section" = false → slideKindOf fs = .content := by
  refine ⟨lookupField_fixFields_type i fs, ?_⟩
  intro t ht h1 h2
  unfold slideKindOf
  rw [ht]
  simp [h1, h2]

/-- C8 counterexample: a slide with the unknown type "weird" keeps that
type in the validated outline; "weird" is outside the closed set
{title, section, content}. -/
theorem unknown_type_survives_validation :
    parse_llm_response "\x7b\"slides\":[\x7b\"type\":\"weird\"\x7d]\x7d" =
      .ok (.obj [("slides", .arr [.obj [("type", .str "weird"),
        ("title", .str "Slide 1"), ("speaker_notes", .str "Notes for slide 1")]]),
        ("title", .str "Generated Presentation")]) ∧
    "weird" ∉ (["title", "section", "content"] : List String) := by
  exact ⟨by rfl, by decide⟩

/-- Witness for the unknown-type claim at the slide whose raw type is
"weird". -/
theorem unknown_type_kept_and_rendered_as_content_witness :
    lookupField (fixFields 0 [("type", JValue.str "weird")]) "type" =
      some ((lookupField [("type", JValue.str "weird")] "type").getD (.str "content")) ∧
    ∀ t, lookupField [("type", JValue.str "weird")] "type" = some t →
      jstrEq t "title" = false → jstrEq t "section" = false →
      slideKindOf [("type", JValue.str "weird")] = .content :=
  unknown_type_kept_and_rendered_as_content 0 [("type", JValue.str "weird")]

/-!  Lemmas about the task table and the C10 claim.  -/

theorem getTask_setTask_self (t : TaskTable) (id : String) (e : TaskEntry) :
    getTask (setTask t id e) id = some e := by
  induction t with
  | nil => simp [setTask, getTask]
  | cons p t ih =>
    obtain ⟨id0, e0⟩ := p
    by_cases h : id0 = id
    · simp [setTask, getTask, h]
    · simp [setTask, getTask, h, ih]

theorem getTask_updTask_self (t : TaskTable) (id : String) (f : TaskEntry → TaskEntry) :
    getTask (updTask t id f) id = (getTask t id).map f := by
  induction t with
  | nil => simp [updTask, getTask]
  | cons p t ih =>
    obtain ⟨id0, e0⟩ := p
    by_cases h : id0 = id
    · simp [updTask, getTask, h]
    · simp [updTask, getTask, h, ih]

/-- C10: the full-generation endpoint performs no provider validation at
submission time: with text of at least 20 stripped characters, a
`.pptx`/`.potx` template filename, and a provider outside
{openai, anthropic, gemini}, the request succeeds with status "started" and
the task entry is created with status "started" and progress 0; the
unsupported provider surfaces only when the background task runs, as the
entry transitioning to status "failed" with progress 0 carrying the
`LLMService` constructor's message — while the outline-only endpoint
rejects the same provider synchronously, before any backend call. -/
theorem unsupported_provider_fails_only_in_background
    (text filename provider taskId llmResponse : String) (tasks : TaskTable)
    (hlen : 20 ≤ (pyStrip text.toList).length)
    (hfile : (endsWithC (pyLower filename) ".pptx" ||
      endsWithC (pyLower filename) ".potx") = true)
    (hprov : supportedProvider (pyLower provider) = false) :
    (generate_full_presentation text filename provider taskId tasks).1 =
      .started taskId "started" "Generation started. Use task_id to check progress." ∧
    getTask (generate_full_presentation text filename provider taskId tasks).2 taskId =
      some ⟨"started", 0, "Starting presentation generation...", none⟩ ∧
    getTask (process_full_generation taskId text provider llmResponse
        (generate_full_presentation text filename provider taskId tasks).2) taskId =
      some ⟨"failed", 0,
        "Generation failed: Unsupported LLM provider: " ++ pyLower provider, none⟩ ∧
    process_text_endpoint text provider llmResponse =
      .httpError 500 "Processing failed: 400: Unsupported LLM provider" := by
  have hnot : ¬(pyStrip text.toList).length < 20 := by omega
  have hradio : (!(endsWithC (pyLower filename) ".pptx" ||
      endsWithC (pyLower filename) ".potx")) = false := by
    rw [hfile]
    rfl
  have hgen : generate_full_presentation text filename provider taskId tasks =
      (.started taskId "started" "Generation started. Use task_id to check progress.",
        setTask tasks taskId ⟨"started", 0, "Starting presentation generation...", none⟩) := by
    unfold generate_full_presentation
    rw [if_neg hnot, hradio]
    rfl
  have hpo : provider ≠ "openai" := by
    intro he
    subst he
    exact absurd hprov (by decide)
  have hpa : provider ≠ "anthropic" := by
    intro he
    subst he
    exact absurd hprov (by decide)
  have hpg : provider ≠ "gemini" := by
    intro he
    subst he
    exact absurd hprov (by decide)
  have hsupp : (!supportedProvider (pyLower provider)) = true := by
    rw [hprov]
    rfl
  refine ⟨by rw [hgen], by rw [hgen]; exact getTask_setTask_self tasks taskId _, ?_, ?_⟩
  · rw [hgen]
    unfold process_full_generation
    rw [hsupp]
    simp only [if_true]
    rw [getTask_updTask_self, getTask_updTask_self, getTask_updTask_self,
      getTask_setTask_self]
    rfl
  · unfold process_text_endpoint
    rw [if_neg hnot]
    have hbp : (!(provider == "openai" || provider == "anthropic" ||
        provider == "gemini")) = true := by
      rw [beq_eq_false_iff_ne.mpr hpo, beq_eq_false_iff_ne.mpr hpa,
        beq_eq_false_iff_ne.mpr hpg]
      rfl
    rw [hbp]
    rfl

/-- Witness for the late-provider-failure claim at a concrete request with
the unsupported provider "cohere". -/
theorem unsupported_provider_fails_only_in_background_witness :
    (generate_full_presentation "This text has at least twenty characters."
      "deck.PPTX" "cohere" "task-1" []).1 =
      .started "task-1" "started" "Generation started. Use task_id to check progress." ∧
    getTask (generate_full_presentation "This text has at least twenty characters."
      "deck.PPTX" "cohere" "task-1" []).2 "task-1" =
      some ⟨"started", 0, "Starting presentation generation...", none⟩ ∧
    getTask (process_full_generation "task-1"
        "This text has at least twenty characters." "cohere" "irrelevant"
        (generate_full_presentation "This text has at least twenty characters."
          "deck.PPTX" "cohere" "task-1" []).2) "task-1" =
      some ⟨"failed", 0,
        "Generation failed: Unsupported LLM provider: " ++ pyLower "cohere", none⟩ ∧
    process_text_endpoint "This text has at least twenty characters." "cohere"
      "irrelevant" =
      .httpError 500 "Processing failed: 400: Unsupported LLM provider" :=
  unsupported_provider_fails_only_in_background
    "This text has at least twenty characters." "deck.PPTX" "cohere" "task-1"
    "irrelevant" [] (by decide) (by decide) (by decide)
